import Mathlib

/-!
Verification development for the school-directory PDF data extractor
(`src/main.py`).  The text-processing core is embedded shallowly on
`List Char`: whitespace normalization, de-hyphenation, anchor-based
segmentation (`process_pdf`, lines 100-116) and per-span field extraction
(`extract_school_data`, lines 23-87).  Python regular expressions are
translated into explicit, executable scanners that reproduce the
leftmost-match, greedy/lazy and backtracking behaviour of the `re` module
on the concrete patterns appearing in the source.
-/

namespace DataExtractor

/-! ## Character classes (Python `\s`, `\w`, `[A-Z]`, ...) -/

/-- Python `\s` on ASCII text: space, tab, newline, carriage return,
vertical tab, form feed. -/
def isWSChar (c : Char) : Bool :=
  c = ' ' || c = '\t' || c = '\n' || c = '\r' || c = '\x0b' || c = '\x0c'

/-- Python `\w` on ASCII text: letters, digits and underscore. -/
def isWordChar (c : Char) : Bool :=
  c.isAlphanum || c = '_'

/-- Word-ness of an optional character; absent (start/end of text) counts
as non-word.  Used for `\b`. -/
def isWordO : Option Char → Bool
  | none => false
  | some c => isWordChar c

/-- Python `\b`: a word boundary sits between two adjacent positions iff
their word-ness differs. -/
def wb (a b : Option Char) : Bool :=
  isWordO a != isWordO b

/-! ## Small string helpers -/

/-- Case-sensitive literal match: `startsCS pat s` is true iff `pat` is a
prefix of `s`. -/
def startsCS : List Char → List Char → Bool
  | [], _ => true
  | _ :: _, [] => false
  | a :: l, b :: s => a = b && startsCS l s

/-- Case-sensitive literal match returning the remainder after the
literal, or `none`. -/
def dropCS : List Char → List Char → Option (List Char)
  | [], s => some s
  | _ :: _, [] => none
  | a :: l, b :: s => if a = b then dropCS l s else none

/-- Case-insensitive literal match (Python `re.IGNORECASE` over ASCII)
returning the remainder after the literal, or `none`. -/
def dropCI : List Char → List Char → Option (List Char)
  | [], s => some s
  | _ :: _, [] => none
  | a :: l, b :: s => if a.toLower = b.toLower then dropCI l s else none

/-- Python `str.strip()`: remove leading and trailing whitespace. -/
def pyStrip (l : List Char) : List Char :=
  ((l.dropWhile isWSChar).reverse.dropWhile isWSChar).reverse

/-- Find the first `f`-success scanning a list of candidates in order;
this is the backtracking preference order of the `re` engine. -/
def firstSome : List α → (α → Option β) → Option β
  | [], _ => none
  | a :: l, f =>
    match f a with
    | some b => some b
    | none => firstSome l f

/-! ## Whitespace normalization: `re.sub(r'\s+', ' ', text)`
(lines 39 and 103 of `src/main.py`) -/

/-- Worker for `collapseWS`; the flag records whether the scanner is
inside a whitespace run whose single replacement space was already
emitted. -/
def collapseAux : Bool → List Char → List Char
  | _, [] => []
  | inRun, c :: rest =>
    if isWSChar c then
      if inRun then collapseAux true rest
      else ' ' :: collapseAux true rest
    else c :: collapseAux false rest

/-- `re.sub(r'\s+', ' ', text)`: every maximal run of whitespace becomes
one space. -/
def collapseWS (t : List Char) : List Char :=
  collapseAux false t

/-! ## De-hyphenation: `re.sub(r'(\w)-\s*\n\s*(\w)', r'\1\2', full_text)`
(line 102 of `src/main.py`) -/

/-- Tail of an attempted de-hyphenation match: after `(\w)-\s*\n\s*` the
pattern still needs one word character `(\w)`. -/
def hyphEnd : List Char → Option (Char × List Char)
  | [] => none
  | d :: r4 => if isWordChar d then some (d, r4) else none

/-- Attempt `(\w)-\s*\n\s*(\w)` at a position whose first character is
`c` and whose remaining text is `rest`.  The greedy `\s*\n\s*` always
consumes the whole maximal whitespace run after the hyphen, and matches
iff that run contains a line break.  On success, returns the second word
character and the remainder after the match. -/
def hyphMatch : Char → List Char → Option (Char × List Char)
  | _, [] => none
  | c, c2 :: r2 =>
    if isWordChar c then
      if c2 = '-' then
        if (r2.takeWhile isWSChar).contains '\n' then
          hyphEnd (r2.drop (r2.takeWhile isWSChar).length)
        else none
      else none
    else none

/-- Worker for `dehyphenate`, scanning left to right; at each position it
attempts `hyphMatch` and on success replaces the match by its two word
characters, continuing after the match (`re.sub` replaces leftmost
non-overlapping matches).  Fuel only bounds recursion; it is
`length + 1`, enough because every step consumes at least one
character. -/
def dehyphGo : Nat → List Char → List Char
  | 0, s => s
  | _ + 1, [] => []
  | fuel + 1, c :: rest =>
    match hyphMatch c rest with
    | some p => c :: p.1 :: dehyphGo fuel p.2
    | none => c :: dehyphGo fuel rest

/-- `re.sub(r'(\w)-\s*\n\s*(\w)', r'\1\2', full_text)`: rejoin a word
split by hyphen at a line break. -/
def dehyphenate (t : List Char) : List Char :=
  dehyphGo (t.length + 1) t

/-! ## Records (the Python dict built by `extract_school_data`) -/

/-- A record is the Python dict: an ordered association list from field
name to value. -/
abbrev Record := List (String × List Char)

/-- The sentinel value `'NA'`. -/
def naV : List Char := "NA".toList

/-- The initial dict of `extract_school_data` (lines 25-36): all ten keys
mapped to the sentinel, in the source's literal order and spelling
(including the space in `'City/ Town'`). -/
def initData : Record :=
  [("School Name", naV), ("Location", naV), ("Address", naV),
   ("City/ Town", naV), ("County", naV), ("Country", naV),
   ("Website", naV), ("Phone", naV), ("Email", naV), ("Fax", naV)]

/-- Python dict assignment `data[k] = v`: replace the value at the first
occurrence of `k`, keeping its position; append if absent. -/
def setKey : Record → String → List Char → Record
  | [], k, v => [(k, v)]
  | (k', v') :: r, k, v =>
    if k' = k then (k, v) :: r else (k', v') :: setKey r k v

/-- Python dict read `data[k]` (as an option). -/
def lookupKey : Record → String → Option (List Char)
  | [], _ => none
  | (k', v) :: r, k => if k' = k then some v else lookupKey r k

/-! ## Name extraction (lines 42-44)
`re.match(r'^(.*?)(?=Location:|Address:|City/ Town:|County:|Country:|Website:|Phone:|Email:|Fax:|$)', text_block)`
is case-sensitive; the lazy capture stops at the earliest occurrence of
any of the nine labels, or at end of text. -/

/-- The nine label literals of the name-boundary lookahead, in source
order. -/
def nameLabels : List (List Char) :=
  ["Location:".toList, "Address:".toList, "City/ Town:".toList,
   "County:".toList, "Country:".toList, "Website:".toList,
   "Phone:".toList, "Email:".toList, "Fax:".toList]

/-- Prefix of `t` up to the earliest case-sensitive occurrence of a label
(the group of the name regex before `strip`). -/
def namePre : List Char → List Char
  | [] => []
  | c :: rest =>
    if nameLabels.any (fun lab => startsCS lab (c :: rest)) then []
    else c :: namePre rest

/-- The name regex always matches (the lookahead alternative `$` is
always available), so the search yields the lazy prefix. -/
def nameSearch (t : List Char) : Option (List Char) :=
  some (namePre t)

/-! ## Labeled-field capture (lines 47-60)
Each field pattern is `Label:\s*(.*?)(?=<the other eight labels>|$)`
searched with `re.IGNORECASE`; the capture runs from after the label and
its following whitespace up to the earliest occurrence of any boundary
label, or end of span. -/

/-- One entry of the `fields` dict: output key, label literal (with
colon) and the boundary labels of its lookahead, in source order. -/
structure FieldSpec where
  key : String
  label : List Char
  bounds : List (List Char)
deriving DecidableEq

/-- The `fields` dict of `extract_school_data`, in its insertion order,
with every pattern's boundary list transcribed from the source. -/
def fieldsList : List FieldSpec :=
  [⟨"Location", "Location:".toList,
    ["Address:".toList, "City/ Town:".toList, "County:".toList,
     "Country:".toList, "Website:".toList, "Phone:".toList,
     "Email:".toList, "Fax:".toList]⟩,
   ⟨"Address", "Address:".toList,
    ["Location:".toList, "City/ Town:".toList, "County:".toList,
     "Country:".toList, "Website:".toList, "Phone:".toList,
     "Email:".toList, "Fax:".toList]⟩,
   ⟨"City/ Town", "City/ Town:".toList,
    ["Location:".toList, "Address:".toList, "County:".toList,
     "Country:".toList, "Website:".toList, "Phone:".toList,
     "Email:".toList, "Fax:".toList]⟩,
   ⟨"County", "County:".toList,
    ["Location:".toList, "Address:".toList, "City/ Town:".toList,
     "Country:".toList, "Website:".toList, "Phone:".toList,
     "Email:".toList, "Fax:".toList]⟩,
   ⟨"Country", "Country:".toList,
    ["Location:".toList, "Address:".toList, "City/ Town:".toList,
     "County:".toList, "Website:".toList, "Phone:".toList,
     "Email:".toList, "Fax:".toList]⟩,
   ⟨"Website", "Website:".toList,
    ["Location:".toList, "Address:".toList, "City/ Town:".toList,
     "County:".toList, "Country:".toList, "Phone:".toList,
     "Email:".toList, "Fax:".toList]⟩,
   ⟨"Phone", "Phone:".toList,
    ["Location:".toList, "Address:".toList, "City/ Town:".toList,
     "County:".toList, "Country:".toList, "Website:".toList,
     "Email:".toList, "Fax:".toList]⟩,
   ⟨"Email", "Email:".toList,
    ["Location:".toList, "Address:".toList, "City/ Town:".toList,
     "County:".toList, "Country:".toList, "Website:".toList,
     "Phone:".toList, "Fax:".toList]⟩,
   ⟨"Fax", "Fax:".toList,
    ["Location:".toList, "Address:".toList, "City/ Town:".toList,
     "County:".toList, "Country:".toList, "Website:".toList,
     "Phone:".toList, "Email:".toList]⟩]

/-- Leftmost case-insensitive occurrence of a label; returns the suffix
after the label. -/
def findCI (lab : List Char) : List Char → Option (List Char)
  | [] => dropCI lab []
  | c :: rest =>
    match dropCI lab (c :: rest) with
    | some r => some r
    | none => findCI lab rest

/-- The lazy capture `(.*?)` bounded by the lookahead: take characters
until a boundary label starts (case-insensitively), or to the end. -/
def captureUntil (bounds : List (List Char)) : List Char → List Char
  | [] => []
  | c :: rest =>
    if bounds.any (fun b => (dropCI b (c :: rest)).isSome) then []
    else c :: captureUntil bounds rest

/-- `re.search` of one field pattern: on the leftmost occurrence of the
label, skip `\s*`, then capture lazily up to any boundary label or end of
text.  The result is the raw group (before `strip`). -/
def fieldSearch (f : FieldSpec) (t : List Char) : Option (List Char) :=
  match findCI f.label t with
  | none => none
  | some after => some (captureUntil f.bounds (after.dropWhile isWSChar))

/-! ## Phone pattern (lines 66-75)
`re.findall(r'(?:\b\d{3}[-.]?\d{3}[-.]?\d{3,4}\b|\b0\d{2,3}[- ]?\d{3,4}[- ]?\d{3,4}\b)', value)`
then per match `re.sub(r'[^\d]', '', phone)` and trunk normalization. -/

/-- Grab exactly `n` digits; returns the digits and the remainder. -/
def grabDigits : Nat → List Char → Option (List Char × List Char)
  | 0, s => some ([], s)
  | _ + 1, [] => none
  | n + 1, c :: s =>
    if c.isDigit then
      match grabDigits n s with
      | some (g, r) => some (c :: g, r)
      | none => none
    else none

/-- Candidates for an optional separator class (`[-.]?` or `[- ]?`): the
greedy engine prefers consuming the separator. -/
def optSep (cls : List Char) : List Char → List (List Char × List Char)
  | [] => [([], [])]
  | c :: r =>
    if c ∈ cls then [([c], r), ([], c :: r)]
    else [([], c :: r)]

/-- Candidates for `\d{3,4}` in greedy preference order (four digits
before three). -/
def grab34 (s : List Char) : List (List Char × List Char) :=
  (match grabDigits 4 s with
   | some p => [p]
   | none => []) ++
  (match grabDigits 3 s with
   | some p => [p]
   | none => [])

/-- Candidates for `\d{2,3}` in greedy preference order (three digits
before two). -/
def grab23 (s : List Char) : List (List Char × List Char) :=
  (match grabDigits 3 s with
   | some p => [p]
   | none => []) ++
  (match grabDigits 2 s with
   | some p => [p]
   | none => [])

/-- First phone alternative `\b\d{3}[-.]?\d{3}[-.]?\d{3,4}\b` tried at
the current position; `prev` is the character before the position (for
`\b`).  Returns the match and the remainder. -/
def phoneAlt1 (prev : Option Char) (s : List Char) :
    Option (List Char × List Char) :=
  if wb prev s.head? then
    (grabDigits 3 s).bind fun p1 =>
    firstSome (optSep ['-', '.'] p1.2) fun q1 =>
    (grabDigits 3 q1.2).bind fun p2 =>
    firstSome (optSep ['-', '.'] p2.2) fun q2 =>
    firstSome (grab34 q2.2) fun p3 =>
    if wb p3.1.getLast? p3.2.head? then
      some (p1.1 ++ q1.1 ++ p2.1 ++ q2.1 ++ p3.1, p3.2)
    else none
  else none

/-- Second phone alternative `\b0\d{2,3}[- ]?\d{3,4}[- ]?\d{3,4}\b`. -/
def phoneAlt2 (prev : Option Char) (s : List Char) :
    Option (List Char × List Char) :=
  match s with
  | [] => none
  | c0 :: s1 =>
    if c0 = '0' then
      if wb prev (some c0) then
        firstSome (grab23 s1) fun p1 =>
        firstSome (optSep ['-', ' '] p1.2) fun q1 =>
        firstSome (grab34 q1.2) fun p2 =>
        firstSome (optSep ['-', ' '] p2.2) fun q2 =>
        firstSome (grab34 q2.2) fun p3 =>
        if wb p3.1.getLast? p3.2.head? then
          some ('0' :: (p1.1 ++ q1.1 ++ p2.1 ++ q2.1 ++ p3.1), p3.2)
        else none
      else none
    else none

/-- The whole phone pattern: the alternation tries the first branch
completely before the second. -/
def phoneRe (prev : Option Char) (s : List Char) :
    Option (List Char × List Char) :=
  match phoneAlt1 prev s with
  | some r => some r
  | none => phoneAlt2 prev s

/-- `re.findall`-style scan: try the matcher at each position left to
right; on success emit the match and continue after it, else advance one
character.  All matchers used here never match the empty string, so fuel
`length + 1` never runs out. -/
def scanAll (m : Option Char → List Char → Option (List Char × List Char)) :
    Nat → Option Char → List Char → List (List Char)
  | 0, _, _ => []
  | _ + 1, _, [] => []
  | fuel + 1, prev, c :: rest =>
    match m prev (c :: rest) with
    | some (mt, r) => mt :: scanAll m fuel (some (mt.getLast?.getD c)) r
    | none => scanAll m fuel (some c) rest

/-- `re.findall` of the phone pattern over a captured value. -/
def phoneFindall (v : List Char) : List (List Char) :=
  scanAll phoneRe (v.length + 1) none v

/-- Per-match cleaning (lines 69-74): strip non-digits; exactly 9 digits
with leading 2-9 gain a leading zero; exactly 12 digits starting `254`
have the prefix replaced by a zero. -/
def cleanPhone (p : List Char) : List Char :=
  let c := p.filter Char.isDigit
  if c.length = 9 && "23456789".toList.contains (c.headD 'x') then
    '0' :: c
  else if c.length = 12 && startsCS "254".toList c then
    '0' :: c.drop 3
  else c

/-- The same cleaning with the 12-digit `254` branch removed; used to
state that that branch is dead code. -/
def cleanPhoneNo254 (p : List Char) : List Char :=
  let c := p.filter Char.isDigit
  if c.length = 9 && "23456789".toList.contains (c.headD 'x') then
    '0' :: c
  else c

/-- Python `set(...)` over a list of strings, modelled as first-occurrence
deduplication.  The iteration order of a Python `set` is unspecified; the
inputs arising in the claims below have at most one distinct element, for
which every order agrees. -/
def dedupFirst (seen : List (List Char)) : List (List Char) → List (List Char)
  | [] => []
  | x :: r =>
    if seen.contains x then dedupFirst seen r
    else x :: dedupFirst (x :: seen) r

/-- See `dedupFirst`. -/
def pySet (l : List (List Char)) : List (List Char) :=
  dedupFirst [] l

/-- Python `', '.join(...)`. -/
def joinComma : List (List Char) → List Char
  | [] => []
  | [x] => x
  | x :: y :: r => x ++ ", ".toList ++ joinComma (y :: r)

/-! ## Email pattern (lines 77-79)
`re.findall(r'\b[A-Za-z0-9._%+-]+@[A-Za-z0-9.-]+\.[A-Z|a-z]{2,}\b', value, re.IGNORECASE)`. -/

/-- Local-part class `[A-Za-z0-9._%+-]`. -/
def isLocalChar (c : Char) : Bool :=
  c.isAlphanum || ['.', '_', '%', '+', '-'].contains c

/-- Domain class `[A-Za-z0-9.-]`. -/
def isDomChar (c : Char) : Bool :=
  c.isAlphanum || c = '.' || c = '-'

/-- Top-level class `[A-Z|a-z]` (the literal `|` belongs to the class). -/
def isTldChar (c : Char) : Bool :=
  c.isAlpha || c = '|'

/-- Descending candidate lengths `hi, hi-1, ..., lo` (greedy preference
for a counted repetition). -/
def descLens (hi lo : Nat) : List Nat :=
  (List.range (hi + 1 - lo)).map (fun i => hi - i)

/-- The email matcher at one position.  The local-part run is forced to
be maximal (`@` is not in its class); the domain run and the top-level
run backtrack greedily to place the final `\.` and the trailing `\b`. -/
def emailM (prev : Option Char) (s : List Char) :
    Option (List Char × List Char) :=
  let loc := s.takeWhile isLocalChar
  if loc.isEmpty then none
  else if wb prev s.head? then
    match s.drop loc.length with
    | '@' :: s2 =>
      let dom := s2.takeWhile isDomChar
      firstSome (descLens dom.length 1) fun d =>
        match s2.drop d with
        | '.' :: s3 =>
          let tld := s3.takeWhile isTldChar
          firstSome (descLens tld.length 2) fun t =>
            let rest := s3.drop t
            if wb (s3.take t).getLast? rest.head? then
              some (loc ++ '@' :: s2.take d ++ '.' :: s3.take t, rest)
            else none
        | _ => none
    | _ => none
  else none

/-- `re.findall` of the email pattern. -/
def emailFindall (v : List Char) : List (List Char) :=
  scanAll emailM (v.length + 1) none v

/-! ## Website pattern (lines 81-83)
`re.findall(r'(?:https?://|www\.)[^\s,]+', value)` (case-sensitive). -/

/-- Continuation of the website matcher after its literal head: the run
`[^\s,]+` is greedy with nothing after it, hence maximal and nonempty. -/
def webTail (pre : List Char) (r : List Char) :
    Option (List Char × List Char) :=
  let run := r.takeWhile (fun c => !isWSChar c && c != ',')
  if run.isEmpty then none
  else some (pre ++ run, r.drop run.length)

/-- The website matcher at one position: `https?://` (preferring the `s`)
or `www.`, then the maximal run. -/
def webM (_prev : Option Char) (s : List Char) :
    Option (List Char × List Char) :=
  match dropCS "https://".toList s with
  | some r => webTail "https://".toList r
  | none =>
    match dropCS "http://".toList s with
    | some r => webTail "http://".toList r
    | none =>
      match dropCS "www.".toList s with
      | some r => webTail "www.".toList r
      | none => none

/-- `re.findall` of the website pattern. -/
def webFindall (v : List Char) : List (List Char) :=
  scanAll webM (v.length + 1) none v

/-! ## The field-extraction loop (lines 62-87) -/

/-- The normalization at line 39:
`text_block = re.sub(r'\s+', ' ', text_block).strip()`. -/
def normBlock (tb : List Char) : List Char :=
  pyStrip (collapseWS tb)

/-- One iteration of the `for field, pattern in fields.items()` loop:
search the pattern, strip the capture, and if nonempty store the cleaned
value under the field's key. -/
def applyField (t : List Char) (d : Record) (f : FieldSpec) : Record :=
  match fieldSearch f t with
  | none => d
  | some raw =>
    let value := pyStrip raw
    if value = [] then d
    else if f.key = "Phone" then
      let cleaned := (phoneFindall value).map cleanPhone
      setKey d f.key (if cleaned.isEmpty then naV else joinComma (pySet cleaned))
    else if f.key = "Email" then
      let emails := emailFindall value
      setKey d f.key (if emails.isEmpty then naV else joinComma (pySet emails))
    else if f.key = "Website" then
      let webs := webFindall value
      setKey d f.key (if webs.isEmpty then naV else joinComma (pySet webs))
    else setKey d f.key value

/-- `extract_school_data` (lines 23-87): normalize the block, extract the
name, then run the field loop over the fixed dict. -/
def extract_school_data (text_block : List Char) : Record :=
  let t := normBlock text_block
  let d1 :=
    match nameSearch t with
    | some nm => setKey initData "School Name" (pyStrip nm)
    | none => initData
  fieldsList.foldl (applyField t) d1

/-! ## Segmentation (lines 102-116)
`re.split(r'(?=\b[A-Z][a-zA-Z\s,&\.\'-]+(?:School|Academy|Sch\.|High|Centre|Foundation)\b)', full_text)[1:]`
followed by the pairwise concatenation loop. -/

/-- The run class `[a-zA-Z\s,&\.\'-]` of the anchor pattern. -/
def nameRunChar (c : Char) : Bool :=
  c.isAlpha || isWSChar c || [',', '&', '.', '\'', '-'].contains c

/-- The institutional keywords of the anchor alternation. -/
def kwList : List (List Char) :=
  ["School".toList, "Academy".toList, "Sch.".toList,
   "High".toList, "Centre".toList, "Foundation".toList]

/-- Does some keyword, followed by `\b`, start here? -/
def kwHere (s : List Char) : Bool :=
  kwList.any fun k =>
    match dropCS k s with
    | some r => wb k.getLast? r.head?
    | none => false

/-- After the leading capital: at least one run character, then a
keyword (existence over all run lengths, as the lookahead only needs one
successful expansion). -/
def runThenKw : List Char → Bool
  | [] => false
  | c :: rest => nameRunChar c && (kwHere rest || runThenKw rest)

/-- The zero-width entity-start anchor
`(?=\b[A-Z][a-zA-Z\s,&\.\'-]+(?:School|Academy|Sch\.|High|Centre|Foundation)\b)`
tested at the position beginning with `s`; `prev` is the preceding
character. -/
def anchorLook (prev : Option Char) (s : List Char) : Bool :=
  match s with
  | [] => false
  | c :: rest => ('A' ≤ c && c ≤ 'Z') && wb prev (some c) && runThenKw rest

/-- `re.split` on the zero-width anchor: a new piece starts at every
position where the lookahead matches (Python ≥ 3.7 splits on empty
matches, scanning left to right). -/
def splitGo (prev : Option Char) (acc : List Char) : List Char → List (List Char)
  | [] => [acc.reverse]
  | c :: rest =>
    if anchorLook prev (c :: rest) then
      acc.reverse :: splitGo (some c) [c] rest
    else splitGo (some c) (c :: acc) rest

/-- All pieces of `re.split(...)`, including the leading piece before the
first anchor (empty when the text starts at an anchor). -/
def pySplitAnchors (t : List Char) : List (List Char) :=
  splitGo none [] t

/-- `school_blocks = re.split(...)[1:]` (line 106). -/
def schoolBlocks (t : List Char) : List (List Char) :=
  (pySplitAnchors t).drop 1

/-- The loop of lines 108-114: blocks are consumed two at a time, each
pair concatenated into one block (a leftover odd block stands alone). -/
def pairConcat : List (List Char) → List (List Char)
  | [] => []
  | [b] => [b]
  | b1 :: b2 :: r => (b1 ++ b2) :: pairConcat r

/-- The text-processing core of `process_pdf` (lines 100-116): given the
extracted page text, de-hyphenate, normalize whitespace, split into
school blocks, pair them up, and extract a record from each. -/
def process_pdf_text (t : List Char) : List Record :=
  (pairConcat (schoolBlocks (collapseWS (dehyphenate t)))).map extract_school_data

/-- The number of entity-start anchor positions the splitter finds in the
normalized text (the pieces of `re.split` minus the leading one). -/
def numAnchors (t : List Char) : Nat :=
  (pySplitAnchors (collapseWS (dehyphenate t))).length - 1

/-- Modelled from the spec: label matching "on word boundaries with their
trailing colon".  True iff the label occurs (case-insensitively) at some
position preceded by a word boundary.  The code does not implement this;
the definition exists to compare the spec's matching discipline with the
code's. -/
def wbLabelOccurs (lab : List Char) : Option Char → List Char → Bool
  | _, [] => false
  | prev, c :: rest =>
    ((dropCI lab (c :: rest)).isSome && wb prev (some c)) ||
      wbLabelOccurs lab (some c) rest

/-- The ten output keys, in the fixed order of `initData` (and of the
`columns` list of `save_to_excel`, lines 125-129). -/
def schemaKeys : List String :=
  ["School Name", "Location", "Address", "City/ Town", "County",
   "Country", "Website", "Phone", "Email", "Fax"]

/-! ## Record-update lemmas -/

theorem keys_setKey (d : Record) (k : String) (v : List Char)
    (h : k ∈ d.map Prod.fst) :
    (setKey d k v).map Prod.fst = d.map Prod.fst := by
  induction d with
  | nil => simp at h
  | cons p r ih =>
    obtain ⟨k', v'⟩ := p
    by_cases hk : k' = k
    · simp [setKey, hk]
    · simp only [List.map_cons, List.mem_cons] at h
      rcases h with h | h
      · exact absurd h.symm hk
      · simp [setKey, hk, ih h]

theorem lookup_setKey_self (d : Record) (k : String) (v : List Char) :
    lookupKey (setKey d k v) k = some v := by
  induction d with
  | nil => simp [setKey, lookupKey]
  | cons p r ih =>
    obtain ⟨k', v'⟩ := p
    by_cases hk : k' = k
    · simp [setKey, hk, lookupKey]
    · simp [setKey, hk, lookupKey, ih]

theorem lookup_setKey_ne (d : Record) (k k' : String) (v : List Char)
    (h : k' ≠ k) :
    lookupKey (setKey d k v) k' = lookupKey d k' := by
  induction d with
  | nil =>
    simp only [setKey, lookupKey]
    rw [if_neg (fun hh => h hh.symm)]
  | cons p r ih =>
    obtain ⟨k0, v0⟩ := p
    by_cases hk : k0 = k
    · subst hk
      simp only [setKey, if_pos rfl, lookupKey]
      rw [if_neg (fun hh => h hh.symm), if_neg (fun hh => h hh.symm)]
    · simp only [setKey, if_neg hk, lookupKey]
      by_cases h0 : k0 = k'
      · rw [if_pos h0, if_pos h0]
      · rw [if_neg h0, if_neg h0]
        exact ih

theorem applyField_keys (t : List Char) (d : Record) (f : FieldSpec)
    (h : f.key ∈ d.map Prod.fst) :
    (applyField t d f).map Prod.fst = d.map Prod.fst := by
  unfold applyField
  cases fieldSearch f t with
  | none => rfl
  | some raw =>
    simp only
    split_ifs <;> first | rfl | exact keys_setKey d f.key _ h

theorem applyField_lookup_ne (t : List Char) (d : Record) (f : FieldSpec)
    (K : String) (h : f.key ≠ K) :
    lookupKey (applyField t d f) K = lookupKey d K := by
  unfold applyField
  cases fieldSearch f t with
  | none => rfl
  | some raw =>
    simp only
    split_ifs <;> first | rfl | exact lookup_setKey_ne d f.key K _ (Ne.symm h)

theorem applyField_of_none (t : List Char) (f : FieldSpec)
    (h : fieldSearch f t = none) (d : Record) :
    applyField t d f = d := by
  unfold applyField
  rw [h]

theorem applyField_of_empty (t : List Char) (f : FieldSpec) (raw : List Char)
    (hs : fieldSearch f t = some raw) (he : pyStrip raw = [])
    (d : Record) :
    applyField t d f = d := by
  unfold applyField
  rw [hs]
  simp [he]

theorem foldl_keys (t : List Char) :
    ∀ (fs : List FieldSpec) (d : Record),
      (∀ f ∈ fs, f.key ∈ d.map Prod.fst) →
      (fs.foldl (applyField t) d).map Prod.fst = d.map Prod.fst
  | [], _, _ => rfl
  | f :: fs, d, h => by
    have hf : f.key ∈ d.map Prod.fst := h f (by simp)
    have hkeys := applyField_keys t d f hf
    rw [List.foldl_cons,
      foldl_keys t fs (applyField t d f)
        (fun g hg => by rw [hkeys]; exact h g (by simp [hg])),
      hkeys]

theorem foldl_lookup_id (t : List Char) (K : String) :
    ∀ (fs : List FieldSpec) (d : Record),
      (∀ f ∈ fs, f.key = K → ∀ d', applyField t d' f = d') →
      lookupKey (fs.foldl (applyField t) d) K = lookupKey d K
  | [], _, _ => rfl
  | f :: fs, d, h => by
    rw [List.foldl_cons,
      foldl_lookup_id t K fs (applyField t d f)
        (fun g hg => h g (by simp [hg]))]
    by_cases hk : f.key = K
    · rw [h f (by simp) hk]
    · exact applyField_lookup_ne t d f K hk

theorem fieldsList_key_inj :
    ∀ f ∈ fieldsList, ∀ g ∈ fieldsList, f.key = g.key → f = g := by
  decide

theorem extract_keys (tb : List Char) :
    (extract_school_data tb).map Prod.fst = schemaKeys := by
  show (List.foldl (applyField (normBlock tb))
      (setKey initData "School Name" (pyStrip (namePre (normBlock tb))))
      fieldsList).map Prod.fst = schemaKeys
  rw [foldl_keys _ fieldsList _ ?_]
  · rw [keys_setKey initData _ _ (by decide)]
    rfl
  · intro f hf
    rw [keys_setKey initData _ _ (by decide)]
    have hall : ∀ g ∈ fieldsList, g.key ∈ initData.map Prod.fst := by decide
    exact hall f hf

/-! ## C9: idempotence of whitespace normalization -/

theorem collapseAux_idem (t : List Char) :
    ∀ b, collapseAux b (collapseAux b t) = collapseAux b t := by
  induction t with
  | nil => intro b; rfl
  | cons c rest ih =>
    intro b
    have hsp : isWSChar ' ' = true := rfl
    by_cases hc : isWSChar c
    · cases b
      · simp [collapseAux, hc, hsp, ih true]
      · simp [collapseAux, hc, hsp, ih true]
    · simp [collapseAux, hc, ih false]

/-- C9: the whitespace-normalization step `re.sub(r'\s+', ' ', text)`
(lines 39 and 103) is idempotent: applying it twice yields the same text
as applying it once. -/
theorem c9_collapse_idem (t : List Char) :
    collapseWS (collapseWS t) = collapseWS t :=
  collapseAux_idem t false

/-! ## C1: record count versus anchor count -/

theorem pairConcat_length :
    ∀ l : List (List Char), (pairConcat l).length = (l.length + 1) / 2
  | [] => by simp [pairConcat]
  | [b] => by simp [pairConcat]
  | b1 :: b2 :: r => by
    have ih := pairConcat_length r
    simp only [pairConcat, List.length_cons, ih]
    omega

/-- C1 (amended): the pipeline builds its blocks by concatenating
consecutive pairs of the splitter's spans, so the number of records is
the number of anchor positions `N` rounded up to `⌈N/2⌉`, not `N`; when
zero anchors are found the result is the empty sequence (and, the
functions being total, no error is possible). -/
theorem c1_records_length (t : List Char) :
    (process_pdf_text t).length = (numAnchors t + 1) / 2 ∧
      (numAnchors t = 0 → process_pdf_text t = []) := by
  constructor
  · unfold process_pdf_text numAnchors schoolBlocks
    rw [List.length_map, pairConcat_length, List.length_drop]
  · intro h0
    unfold numAnchors at h0
    unfold process_pdf_text schoolBlocks
    have hlen :
        ((pySplitAnchors (collapseWS (dehyphenate t))).drop 1).length = 0 := by
      rw [List.length_drop]
      omega
    rw [List.length_eq_zero.mp hlen]
    rfl

/-- Witness for `c1_records_length` at a concrete anchor-free text. -/
theorem c1_records_length_w : process_pdf_text ("hello".toList) = [] :=
  (c1_records_length ("hello".toList)).2 (by decide)

/-- C1 (counterexample): on `"Abc High Def High"` the splitter finds
three anchor positions (at `Abc`, `High` and `Def`) but the pipeline
produces only two records, so the record count does not equal the anchor
count. -/
theorem c1_counterexample :
    numAnchors ("Abc High Def High".toList) = 3 ∧
      (process_pdf_text ("Abc High Def High".toList)).length = 2 := by
  constructor
  · decide
  · decide

/-! ## C5: the fixed key set of every record -/

/-- C5 (counterexample): the fourth key of every produced record is the
source literal `'City/ Town'` (with a space), not `"City/Town"`: the
claimed key list is not the produced one. -/
theorem c5_counterexample :
    (extract_school_data []).map Prod.fst ≠
      ["School Name", "Location", "Address", "City/Town", "County",
       "Country", "Website", "Phone", "Email", "Fax"] := by
  decide

/-- C5 (amended): every record exposes exactly the ten keys of the
source dict, in its fixed order, the fourth being the literal
`'City/ Town'`. -/
theorem c5_record_keys (tb : List Char) :
    (extract_school_data tb).map Prod.fst =
      ["School Name", "Location", "Address", "City/ Town", "County",
       "Country", "Website", "Phone", "Email", "Fax"] :=
  extract_keys tb

/-! ## C7: empty captures -/

/-- C7 (counterexample): on the span `"Location: Kasarani"` the name
capture is empty and the code stores the empty string (not the sentinel)
under `School Name`, contradicting the claim for the unlabeled field. -/
theorem c7_counterexample :
    lookupKey (extract_school_data ("Location: Kasarani".toList))
        "School Name" = some [] ∧
      ([] : List Char) ≠ naV := by
  constructor
  · decide
  · decide

/-- C7 (amended): for each of the nine labeled fields, a capture that is
empty after trimming leaves the field at the sentinel `'NA'`; the
unlabeled `School Name` field instead always stores the trimmed name
capture, which may be the empty string. -/
theorem c7_empty_capture (tb : List Char) (f : FieldSpec) (raw : List Char)
    (hf : f ∈ fieldsList)
    (hs : fieldSearch f (normBlock tb) = some raw)
    (he : pyStrip raw = []) :
    lookupKey (extract_school_data tb) f.key = some naV ∧
      lookupKey (extract_school_data tb) "School Name" =
        some (pyStrip (namePre (normBlock tb))) := by
  constructor
  · show lookupKey (List.foldl (applyField (normBlock tb))
        (setKey initData "School Name" (pyStrip (namePre (normBlock tb))))
        fieldsList) f.key = some naV
    rw [foldl_lookup_id _ _ fieldsList _ ?_]
    · have hne : ∀ g ∈ fieldsList, g.key ≠ "School Name" := by decide
      rw [lookup_setKey_ne _ _ _ _ (hne f hf)]
      have hna : ∀ g ∈ fieldsList, lookupKey initData g.key = some naV := by
        decide
      exact hna f hf
    · intro g hg hkey
      have hgf : g = f := fieldsList_key_inj g hg f hf (by rw [hkey])
      subst hgf
      exact applyField_of_empty _ g raw hs he
  · show lookupKey (List.foldl (applyField (normBlock tb))
        (setKey initData "School Name" (pyStrip (namePre (normBlock tb))))
        fieldsList) "School Name" =
      some (pyStrip (namePre (normBlock tb)))
    rw [foldl_lookup_id _ _ fieldsList _ ?_]
    · exact lookup_setKey_self initData _ _
    · intro g hg hkey
      have hne : ∀ g ∈ fieldsList, g.key ≠ "School Name" := by decide
      exact absurd hkey (hne g hg)

/-- Witness for `c7_empty_capture`: a span whose `Fax:` label is present
with a whitespace-only value resolves Fax to the sentinel. -/
theorem c7_empty_capture_w :
    lookupKey (extract_school_data ("Abc School Fax: ".toList)) "Fax" =
        some naV ∧
      lookupKey (extract_school_data ("Abc School Fax: ".toList))
          "School Name" =
        some (pyStrip (namePre (normBlock ("Abc School Fax: ".toList)))) :=
  c7_empty_capture ("Abc School Fax: ".toList)
    (FieldSpec.mk "Fax" ("Fax:".toList)
      ["Location:".toList, "Address:".toList, "City/ Town:".toList,
       "County:".toList, "Country:".toList, "Website:".toList,
       "Phone:".toList, "Email:".toList])
    [] (by decide) (by decide) (by decide)

/-! ## C8: missing fields resolve to the sentinel, totally -/

/-- C8: field extraction is total (the extractor is a function defined on
every span); when a field's pattern fails to match, that field resolves
to the sentinel `'NA'` while the rest of the record is still produced
with all ten keys. -/
theorem c8_field_miss (tb : List Char) (f : FieldSpec)
    (hf : f ∈ fieldsList)
    (hn : fieldSearch f (normBlock tb) = none) :
    lookupKey (extract_school_data tb) f.key = some naV ∧
      (extract_school_data tb).map Prod.fst = schemaKeys := by
  constructor
  · show lookupKey (List.foldl (applyField (normBlock tb))
        (setKey initData "School Name" (pyStrip (namePre (normBlock tb))))
        fieldsList) f.key = some naV
    rw [foldl_lookup_id _ _ fieldsList _ ?_]
    · have hne : ∀ g ∈ fieldsList, g.key ≠ "School Name" := by decide
      rw [lookup_setKey_ne _ _ _ _ (hne f hf)]
      have hna : ∀ g ∈ fieldsList, lookupKey initData g.key = some naV := by
        decide
      exact hna f hf
    · intro g hg hkey
      have hgf : g = f := fieldsList_key_inj g hg f hf (by rw [hkey])
      subst hgf
      exact applyField_of_none _ g hn
  · exact extract_keys tb

/-- Witness for `c8_field_miss`: a span with no `Phone:` label leaves
Phone at the sentinel. -/
theorem c8_field_miss_w :
    lookupKey (extract_school_data ("Hello".toList)) "Phone" = some naV ∧
      (extract_school_data ("Hello".toList)).map Prod.fst = schemaKeys :=
  c8_field_miss ("Hello".toList)
    (FieldSpec.mk "Phone" ("Phone:".toList)
      ["Location:".toList, "Address:".toList, "City/ Town:".toList,
       "County:".toList, "Country:".toList, "Website:".toList,
       "Email:".toList, "Fax:".toList])
    (by decide) (by decide)

/-! ## C4: digit counts of phone-pattern matches -/

theorem grabDigits_spec :
    ∀ (n : Nat) (s g r : List Char), grabDigits n s = some (g, r) →
      g.length = n ∧ (∀ c ∈ g, c.isDigit = true) ∧ s = g ++ r
  | 0, s, g, r => by
    intro h
    simp only [grabDigits, Option.some.injEq, Prod.mk.injEq] at h
    obtain ⟨hg, hr⟩ := h
    subst hg
    subst hr
    simp
  | n + 1, [], g, r => by
    intro h
    simp [grabDigits] at h
  | n + 1, c :: s, g, r => by
    intro h
    simp only [grabDigits] at h
    by_cases hc : c.isDigit
    · rw [if_pos hc] at h
      cases hgd : grabDigits n s with
      | none => rw [hgd] at h; simp at h
      | some p =>
        obtain ⟨g', r'⟩ := p
        rw [hgd] at h
        simp only [Option.some.injEq, Prod.mk.injEq] at h
        obtain ⟨hg, hr⟩ := h
        subst hg
        subst hr
        obtain ⟨h1, h2, h3⟩ := grabDigits_spec n s g' r' hgd
        refine ⟨by simp [h1], ?_, by simp [h3]⟩
        intro x hx
        rcases List.mem_cons.mp hx with hx | hx
        · subst hx; exact hc
        · exact h2 x hx
    · rw [if_neg hc] at h
      simp at h

theorem optSep_spec (cls : List Char)
    (hcls : ∀ c ∈ cls, c.isDigit = false) :
    ∀ (s x r : List Char), (x, r) ∈ optSep cls s →
      s = x ++ r ∧ x.filter Char.isDigit = []
  | [], x, r => by
    intro h
    simp only [optSep, List.mem_singleton, Prod.mk.injEq] at h
    obtain ⟨hx, hr⟩ := h
    subst hx
    subst hr
    simp
  | c :: s', x, r => by
    intro h
    simp only [optSep] at h
    by_cases hc : c ∈ cls
    · rw [if_pos hc] at h
      rcases List.mem_cons.mp h with h | h
      · simp only [Prod.mk.injEq] at h
        obtain ⟨hx, hr⟩ := h
        subst hx
        subst hr
        simp [List.filter_cons, hcls c hc]
      · simp only [List.mem_singleton, Prod.mk.injEq] at h
        obtain ⟨hx, hr⟩ := h
        subst hx
        subst hr
        simp
    · rw [if_neg hc] at h
      simp only [List.mem_singleton, Prod.mk.injEq] at h
      obtain ⟨hx, hr⟩ := h
      subst hx
      subst hr
      simp

theorem grab34_spec (s g r : List Char) (h : (g, r) ∈ grab34 s) :
    g.length ≤ 4 ∧ (∀ c ∈ g, c.isDigit = true) ∧ s = g ++ r := by
  unfold grab34 at h
  rcases List.mem_append.mp h with h | h
  · cases h4 : grabDigits 4 s with
    | none => rw [h4] at h; simp at h
    | some p =>
      obtain ⟨g', r'⟩ := p
      rw [h4] at h
      simp only [List.mem_singleton, Prod.mk.injEq] at h
      obtain ⟨hg, hr⟩ := h
      subst hg
      subst hr
      obtain ⟨h1, h2, h3⟩ := grabDigits_spec 4 s _ _ h4
      exact ⟨by omega, h2, h3⟩
  · cases h3c : grabDigits 3 s with
    | none => rw [h3c] at h; simp at h
    | some p =>
      obtain ⟨g', r'⟩ := p
      rw [h3c] at h
      simp only [List.mem_singleton, Prod.mk.injEq] at h
      obtain ⟨hg, hr⟩ := h
      subst hg
      subst hr
      obtain ⟨h1, h2, h3⟩ := grabDigits_spec 3 s _ _ h3c
      exact ⟨by omega, h2, h3⟩

theorem grab23_spec (s g r : List Char) (h : (g, r) ∈ grab23 s) :
    g.length ≤ 3 ∧ (∀ c ∈ g, c.isDigit = true) ∧ s = g ++ r := by
  unfold grab23 at h
  rcases List.mem_append.mp h with h | h
  · cases h3c : grabDigits 3 s with
    | none => rw [h3c] at h; simp at h
    | some p =>
      obtain ⟨g', r'⟩ := p
      rw [h3c] at h
      simp only [List.mem_singleton, Prod.mk.injEq] at h
      obtain ⟨hg, hr⟩ := h
      subst hg
      subst hr
      obtain ⟨h1, h2, h3⟩ := grabDigits_spec 3 s _ _ h3c
      exact ⟨by omega, h2, h3⟩
  · cases h2c : grabDigits 2 s with
    | none => rw [h2c] at h; simp at h
    | some p =>
      obtain ⟨g', r'⟩ := p
      rw [h2c] at h
      simp only [List.mem_singleton, Prod.mk.injEq] at h
      obtain ⟨hg, hr⟩ := h
      subst hg
      subst hr
      obtain ⟨h1, h2, h3⟩ := grabDigits_spec 2 s _ _ h2c
      exact ⟨by omega, h2, h3⟩

theorem firstSome_spec :
    ∀ (l : List α) (f : α → Option β) (b : β), firstSome l f = some b →
      ∃ a ∈ l, f a = some b
  | [], _, b => by
    intro h
    simp [firstSome] at h
  | a :: l, f, b => by
    intro h
    simp only [firstSome] at h
    cases hfa : f a with
    | some b' =>
      rw [hfa] at h
      simp only [Option.some.injEq] at h
      subst h
      exact ⟨a, by simp, hfa⟩
    | none =>
      rw [hfa] at h
      obtain ⟨a', ha', hfa'⟩ := firstSome_spec l f b h
      exact ⟨a', by simp [ha'], hfa'⟩

/-- The filter of an all-digit group is itself. -/
theorem filter_digits_self (g : List Char) (h : ∀ c ∈ g, c.isDigit = true) :
    g.filter Char.isDigit = g :=
  List.filter_eq_self.mpr h

theorem phoneAlt1_spec (prev : Option Char) (s m r : List Char)
    (h : phoneAlt1 prev s = some (m, r)) :
    (m.filter Char.isDigit).length ≤ 10 := by
  unfold phoneAlt1 at h
  split at h
  · cases h1 : grabDigits 3 s with
    | none => rw [h1] at h; simp at h
    | some p1 =>
      obtain ⟨g1, s1⟩ := p1
      rw [h1, Option.some_bind] at h
      obtain ⟨q1, hq1, h⟩ := firstSome_spec _ _ _ h
      obtain ⟨x1, s2⟩ := q1
      simp only at h
      cases h2 : grabDigits 3 s2 with
      | none => rw [h2] at h; simp at h
      | some p2 =>
        obtain ⟨g2, s3⟩ := p2
        rw [h2, Option.some_bind] at h
        obtain ⟨q2, hq2, h⟩ := firstSome_spec _ _ _ h
        obtain ⟨x2, s4⟩ := q2
        simp only at h
        obtain ⟨p3, hp3, h⟩ := firstSome_spec _ _ _ h
        obtain ⟨g3, s5⟩ := p3
        simp only at h
        split at h
        · simp only [Option.some.injEq, Prod.mk.injEq] at h
          obtain ⟨hm, hrr⟩ := h
          subst hm
          obtain ⟨e1, d1, _⟩ := grabDigits_spec 3 s g1 s1 h1
          obtain ⟨_, f1⟩ := optSep_spec _ (by decide) s1 x1 s2 hq1
          obtain ⟨e2, d2, _⟩ := grabDigits_spec 3 s2 g2 s3 h2
          obtain ⟨_, f2⟩ := optSep_spec _ (by decide) s3 x2 s4 hq2
          obtain ⟨e3, d3, _⟩ := grab34_spec s4 g3 s5 hp3
          simp only [List.filter_append, List.length_append,
            filter_digits_self g1 d1, filter_digits_self g2 d2,
            filter_digits_self g3 d3, f1, f2, List.length_nil]
          omega
        · simp at h
  · simp at h

theorem phoneAlt2_spec (prev : Option Char) (s m r : List Char)
    (h : phoneAlt2 prev s = some (m, r)) :
    (m.filter Char.isDigit).length ≤ 12 ∧
      startsCS "254".toList (m.filter Char.isDigit) = false := by
  unfold phoneAlt2 at h
  cases s with
  | nil => simp at h
  | cons c0 s1 =>
    simp only at h
    split at h
    · split at h
      · obtain ⟨p1, hp1, h⟩ := firstSome_spec _ _ _ h
        obtain ⟨g1, t1⟩ := p1
        simp only at h
        obtain ⟨q1, hq1, h⟩ := firstSome_spec _ _ _ h
        obtain ⟨x1, t2⟩ := q1
        simp only at h
        obtain ⟨p2, hp2, h⟩ := firstSome_spec _ _ _ h
        obtain ⟨g2, t3⟩ := p2
        simp only at h
        obtain ⟨q2, hq2, h⟩ := firstSome_spec _ _ _ h
        obtain ⟨x2, t4⟩ := q2
        simp only at h
        obtain ⟨p3, hp3, h⟩ := firstSome_spec _ _ _ h
        obtain ⟨g3, t5⟩ := p3
        simp only at h
        split at h
        · simp only [Option.some.injEq, Prod.mk.injEq] at h
          obtain ⟨hm, hrr⟩ := h
          subst hm
          obtain ⟨e1, d1, _⟩ := grab23_spec s1 g1 t1 hp1
          obtain ⟨_, f1⟩ := optSep_spec _ (by decide) t1 x1 t2 hq1
          obtain ⟨e2, d2, _⟩ := grab34_spec t2 g2 t3 hp2
          obtain ⟨_, f2⟩ := optSep_spec _ (by decide) t3 x2 t4 hq2
          obtain ⟨e3, d3, _⟩ := grab34_spec t4 g3 t5 hp3
          have hfe : ('0' :: (g1 ++ x1 ++ g2 ++ x2 ++ g3)).filter Char.isDigit =
              '0' :: (g1 ++ g2 ++ g3) := by
            simp only [List.filter_cons, List.filter_append,
              filter_digits_self g1 d1, filter_digits_self g2 d2,
              filter_digits_self g3 d3, f1, f2]
            simp
          rw [hfe]
          constructor
          · simp only [List.length_cons, List.length_append]
            omega
          · rfl
        · simp at h
      · simp at h
    · simp at h

/-- C4 (amended): every substring found by the phone pattern strips to at
most twelve digits, and a twelve-digit match always starts with the digit
`0` (the second alternative of the pattern forces it), never with `254`;
hence the cleaning branch for twelve-digit strings starting `254` can
never fire and `cleanPhone` agrees with `cleanPhoneNo254`, the same
function with that branch removed. -/
theorem c4_phone_digits (prev : Option Char) (s m r : List Char)
    (h : phoneRe prev s = some (m, r)) :
    (m.filter Char.isDigit).length ≤ 12 ∧ cleanPhone m = cleanPhoneNo254 m := by
  have key : (m.filter Char.isDigit).length ≤ 12 ∧
      ((m.filter Char.isDigit).length = 12 →
        startsCS "254".toList (m.filter Char.isDigit) = false) := by
    unfold phoneRe at h
    cases h1 : phoneAlt1 prev s with
    | some p =>
      rw [h1] at h
      simp only [Option.some.injEq] at h
      subst h
      have h10 := phoneAlt1_spec prev s m r h1
      refine ⟨by omega, fun h12 => ?_⟩
      exfalso
      omega
    | none =>
      rw [h1] at h
      have h2 := phoneAlt2_spec prev s m r h
      exact ⟨h2.1, fun _ => h2.2⟩
  refine ⟨key.1, ?_⟩
  unfold cleanPhone cleanPhoneNo254
  dsimp only
  split_ifs with hA hB
  · rfl
  · exfalso
    simp only [Bool.and_eq_true, decide_eq_true_eq] at hB
    obtain ⟨h12, hstarts⟩ := hB
    rw [key.2 h12] at hstarts
    exact Bool.false_ne_true hstarts
  · rfl

/-- C4 (counterexample): the captured value `"0123 4567 8901"` is matched
in full by the phone pattern (second alternative) and strips to twelve
digits, refuting the claim that every match strips to at most eleven. -/
theorem c4_counterexample :
    phoneFindall ("0123 4567 8901".toList) = [("0123 4567 8901".toList)] ∧
      (("0123 4567 8901".toList).filter Char.isDigit).length = 12 := by
  constructor
  · decide
  · decide

/-- Witness for `c4_phone_digits` at the concrete match
`"712-345-678"`. -/
theorem c4_phone_digits_w :
    ((("712-345-678".toList).filter Char.isDigit).length ≤ 12 ∧
      cleanPhone ("712-345-678".toList) =
        cleanPhoneNo254 ("712-345-678".toList)) :=
  c4_phone_digits none ("712-345-678".toList) ("712-345-678".toList) []
    (by decide)


/-! ## C10: the de-hyphenation rule -/

/-- A word character is never whitespace. -/
theorem ws_of_word (x : Char) (h : isWordChar x = true) : isWSChar x = false := by
  cases hx : isWSChar x
  · rfl
  · exfalso
    simp only [isWSChar, Bool.or_eq_true, decide_eq_true_eq] at hx
    rcases hx with ((((h1 | h1) | h1) | h1) | h1) | h1 <;> subst h1 <;> simp [isWordChar] at h

/-- C10 (amended): the de-hyphenation rule rejoins a word character, a
hyphen and a line break followed by a word character, and the following
character may be any word character (letter of either case, digit or
underscore), not only a lowercase letter; a hyphen/line-break sequence
followed by a non-word character is left unchanged. -/
theorem c10_dehyphenation (c d : Char) (hc : isWordChar c = true) :
    (isWordChar d = true → dehyphenate [c, '-', '\n', d] = [c, d]) ∧
    (isWordChar d = false → dehyphenate [c, '-', '\n', d] = [c, '-', '\n', d]) := by
  constructor
  · intro hd
    have hwsd := ws_of_word d hd
    have e2 : List.takeWhile isWSChar [d] = [] := by
      simp [List.takeWhile, hwsd]
    have h1 : hyphMatch c ['-', '\n', d] = some (d, []) := by
      unfold hyphMatch
      simp only [hc, if_true]
      have e1 : List.takeWhile isWSChar ['\n', d] = '\n' :: List.takeWhile isWSChar [d] := rfl
      rw [e1, e2]
      simp [hyphEnd, hd]
    show dehyphGo 5 [c, '-', '\n', d] = [c, d]
    rw [show (5 : Nat) = 4 + 1 from rfl]
    rw [show dehyphGo (4 + 1) (c :: ['-', '\n', d]) =
        (match hyphMatch c ['-', '\n', d] with
         | some p => c :: p.1 :: dehyphGo 4 p.2
         | none => c :: dehyphGo 4 ['-', '\n', d]) from rfl]
    rw [h1]
    rfl
  · intro hd
    have h1 : hyphMatch c ['-', '\n', d] = none := by
      unfold hyphMatch
      simp only [hc, if_true]
      by_cases hwsd : isWSChar d
      · have t2 : List.takeWhile isWSChar [d] = [d] := by
          simp [List.takeWhile, hwsd]
        have e1 : List.takeWhile isWSChar ['\n', d] = ['\n', d] := by
          rw [show List.takeWhile isWSChar ['\n', d] =
              '\n' :: List.takeWhile isWSChar [d] from rfl, t2]
        rw [e1]
        have e3 : List.drop (['\n', d].length) ['\n', d] = [] := by simp
        simp [e3, hyphEnd]
      · have t2 : List.takeWhile isWSChar [d] = [] := by
          simp [List.takeWhile, hwsd]
        have e1 : List.takeWhile isWSChar ['\n', d] = ['\n'] := by
          rw [show List.takeWhile isWSChar ['\n', d] =
              '\n' :: List.takeWhile isWSChar [d] from rfl, t2]
        rw [e1]
        simp [hyphEnd, hd]
    show dehyphGo 5 [c, '-', '\n', d] = [c, '-', '\n', d]
    rw [show (5 : Nat) = 4 + 1 from rfl]
    rw [show dehyphGo (4 + 1) (c :: ['-', '\n', d]) =
        (match hyphMatch c ['-', '\n', d] with
         | some p => c :: p.1 :: dehyphGo 4 p.2
         | none => c :: dehyphGo 4 ['-', '\n', d]) from rfl]
    rw [h1]
    have s1 : hyphMatch '-' ['\n', d] = none := rfl
    have s2 : hyphMatch '\n' [d] = none := rfl
    have s3 : hyphMatch d [] = none := rfl
    rw [show (4 : Nat) = 3 + 1 from rfl]
    rw [show dehyphGo (3 + 1) ('-' :: ['\n', d]) =
        (match hyphMatch '-' ['\n', d] with
         | some p => '-' :: p.1 :: dehyphGo 3 p.2
         | none => '-' :: dehyphGo 3 ['\n', d]) from rfl]
    rw [s1]
    rw [show (3 : Nat) = 2 + 1 from rfl]
    rw [show dehyphGo (2 + 1) ('\n' :: [d]) =
        (match hyphMatch '\n' [d] with
         | some p => '\n' :: p.1 :: dehyphGo 2 p.2
         | none => '\n' :: dehyphGo 2 [d]) from rfl]
    rw [s2]
    rw [show (2 : Nat) = 1 + 1 from rfl]
    rw [show dehyphGo (1 + 1) (d :: []) =
        (match hyphMatch d [] with
         | some p => d :: p.1 :: dehyphGo 1 p.2
         | none => d :: dehyphGo 1 []) from rfl]
    rw [s3]
    rfl


/-- Witness for `c10_dehyphenation` at `c := 'a'`, `d := 'B'`. -/
theorem c10_dehyphenation_w :
    dehyphenate ['a', '-', '\n', 'B'] = ['a', 'B'] :=
  (c10_dehyphenation 'a' 'B' (by decide)).1 (by decide)

/-- C10 (counterexample): `"a-\nB"` has the hyphen/line-break followed by
an uppercase letter, which the claim says is left unchanged, yet the code
rejoins it to `"aB"`. -/
theorem c10_counterexample :
    dehyphenate ("a-\nB".toList) = "aB".toList ∧
      "aB".toList ≠ "a-\nB".toList := by
  constructor
  · decide
  · decide

/-! ## C2: the end-to-end scenario -/

/-- C2 (counterexample): the scenario text is split at five anchor
positions (`Alpha`, `Boys`, `High`, `Beta`, `Girls`), whose spans are
then concatenated in pairs, producing three records, not the claimed
two. -/
theorem c2_counterexample :
    (process_pdf_text ("Alpha Boys High School Location: Kasarani Phone: 0712345678 Beta Girls Academy Phone: 712-345-678".toList)).length = 3 := by
  decide

/-- C2 (amended): on the scenario text the pipeline produces exactly
three records: `"Alpha Boys"` (all other fields sentinel),
`"High School"` with Location `"Kasarani"` and Phone `"0712345678"`, and
`"Girls Academy"` with Phone `"0712345678"` (cleaned from
`"712-345-678"`), all other fields sentinel. -/
theorem c2_pipeline_output :
    process_pdf_text ("Alpha Boys High School Location: Kasarani Phone: 0712345678 Beta Girls Academy Phone: 712-345-678".toList) =
      [[("School Name", "Alpha Boys".toList), ("Location", naV), ("Address", naV),
        ("City/ Town", naV), ("County", naV), ("Country", naV),
        ("Website", naV), ("Phone", naV), ("Email", naV), ("Fax", naV)],
       [("School Name", "High School".toList), ("Location", "Kasarani".toList), ("Address", naV),
        ("City/ Town", naV), ("County", naV), ("Country", naV),
        ("Website", naV), ("Phone", "0712345678".toList), ("Email", naV), ("Fax", naV)],
       [("School Name", "Girls Academy".toList), ("Location", naV), ("Address", naV),
        ("City/ Town", naV), ("County", naV), ("Country", naV),
        ("Website", naV), ("Phone", "0712345678".toList), ("Email", naV), ("Fax", naV)]] := by
  decide

/-! ## C3: phone cleaning of the two documented digit strings -/

/-- C3 (counterexample): a captured Phone value consisting of the digit
string `"254712345678"` is not matched anywhere by the phone pattern (no
alternative can cover twelve digits not starting `0`, and `\b` cannot
hold inside the digit run), so the field is stored as the sentinel, not
as `"0712345678"`. -/
theorem c3_counterexample :
    lookupKey (extract_school_data ("Abc School Phone: 254712345678".toList))
        "Phone" = some naV ∧
      naV ≠ "0712345678".toList := by
  constructor
  · decide
  · decide

/-- C3 (amended): a captured value `"712345678"` (nine digits, leading
`7`) is normalized to `"0712345678"`; a captured value `"254712345678"`
finds no phone-pattern match at all, so Phone resolves to the sentinel
(the twelve-digit `254` branch of the cleaning never applies). -/
theorem c3_phone_cleaning :
    lookupKey (extract_school_data ("Abc School Phone: 712345678".toList))
        "Phone" = some ("0712345678".toList) ∧
      cleanPhone ("712345678".toList) = "0712345678".toList ∧
      phoneFindall ("254712345678".toList) = [] ∧
      lookupKey (extract_school_data ("Abc School Phone: 254712345678".toList))
        "Phone" = some naV := by
  refine ⟨?_, ?_, ?_, ?_⟩
  · decide
  · decide
  · decide
  · decide

/-! ## C6: label matching has no word-boundary anchoring -/

/-- C6 (counterexample): in the span `"Abc School Relocation: Suburb"`
the only occurrence of `Location:` is inside the longer word
`Relocation:`, and there is no word-boundary-preceded occurrence
(`wbLabelOccurs` is false); the claim says such a match cannot happen,
yet the extractor captures `"Suburb"` for Location from it. -/
theorem c6_counterexample :
    lookupKey (extract_school_data ("Abc School Relocation: Suburb".toList))
        "Location" = some ("Suburb".toList) ∧
      wbLabelOccurs ("Location:".toList) none
        ("Abc School Relocation: Suburb".toList) = false := by
  constructor
  · decide
  · decide

/-- C6 (amended): label matching is a verbatim substring search for the
label text with its trailing colon, with no word-boundary anchoring
(case-sensitive for the name boundary, case-insensitive for the field
search), so a label can match inside a longer word: on
`"Abc School Relocation: Suburb"` the name boundary (case-sensitive)
never fires, the whole span becomes the name, and the Location field is
captured from inside `Relocation:`. -/
theorem c6_label_matching :
    extract_school_data ("Abc School Relocation: Suburb".toList) =
      [("School Name", "Abc School Relocation: Suburb".toList),
       ("Location", "Suburb".toList), ("Address", naV),
       ("City/ Town", naV), ("County", naV), ("Country", naV),
       ("Website", naV), ("Phone", naV), ("Email", naV), ("Fax", naV)] := by
  decide

end DataExtractor

